import Mathlib

/-!
Verification of the fitting-room geometry/physics/serialization pipeline.

The Python source is shallowly embedded over exact rationals (`ℚ`).
Machine floating-point transcendental routines (`math.sqrt`, `math.sin`,
`math.cos`, `math.pi`) are abstracted as parameters, so every theorem
quantifies over the actual routines; all other arithmetic in the source
(`+ - * / min max abs`, comparisons) is exact over `ℚ`.  Python lists of
floats become `List ℚ`, 3-vectors become the structure `V3`, fallible code
(exceptions) returns `Option`/`Except`.
-/

/-- A 3-vector of rationals, embedding one vertex / normal / force entry
(a Python `[x, y, z]` list of floats). -/
structure V3 where
  x : ℚ
  y : ℚ
  z : ℚ
  deriving DecidableEq, Repr

namespace V3

/-- Componentwise addition. -/
def add (a b : V3) : V3 := ⟨a.x + b.x, a.y + b.y, a.z + b.z⟩

/-- Componentwise subtraction. -/
def sub (a b : V3) : V3 := ⟨a.x - b.x, a.y - b.y, a.z - b.z⟩

/-- Scalar multiplication. -/
def smul (c : ℚ) (a : V3) : V3 := ⟨c * a.x, c * a.y, c * a.z⟩

/-- Squared Euclidean norm (the exact value fed to the machine `sqrt`). -/
def normSq (a : V3) : ℚ := a.x * a.x + a.y * a.y + a.z * a.z

/-- The zero vector (`[0.0, 0.0, 0.0]` in the source). -/
def zero : V3 := ⟨0, 0, 0⟩

end V3

/-- Embeds `_clamp(value, minimum, maximum) = min(max(value, minimum), maximum)`
from `pretrained.py`. -/
def clampQ (value minimum maximum : ℚ) : ℚ := min (max value minimum) maximum

/-- Embeds Python `round(component, 6)` used on simulation frame vertices
(`physics.py` line 103): round to the nearest multiple of `10⁻⁶`. -/
def roundTo6 (x : ℚ) : ℚ := (round (x * 1000000) : ℚ) / 1000000

/-- `roundTo6` applied to each component of a vertex. -/
def roundV3 (v : V3) : V3 := ⟨roundTo6 v.x, roundTo6 v.y, roundTo6 v.z⟩

/-- Embeds `_chunk_vectors(values, 3)` (`physics.py` / `pretrained.py`):
groups a flat list into 3-vectors, failing (`ValueError`) when the length is
not divisible by 3. -/
def chunkVectors3 : List ℚ → Option (List V3)
  | [] => some []
  | x :: y :: z :: rest => (chunkVectors3 rest).map (fun vs => V3.mk x y z :: vs)
  | _ => none

/-! ## `geometry.py`: the `Mesh` container and `Mesh.merge` -/

/-- Embeds the `Mesh` dataclass of `geometry.py`: flat float arrays for
positions, normals and RGBA colors plus a flat triangle index list.  Indices
are embedded as `ℕ` (the data model requires them nonnegative and `< V`). -/
structure MeshQ where
  vertices : List ℚ
  normals : List ℚ
  colors : List ℚ
  indices : List ℕ
  deriving DecidableEq, Repr

namespace MeshQ

/-- Embeds `Mesh.vertex_count = len(self.vertices) // 3`. -/
def vertex_count (m : MeshQ) : ℕ := m.vertices.length / 3

/-- Embeds `Mesh.merge` (`geometry.py` lines 20-25): compute
`offset = len(self.vertices) // 3` before extending, append the other mesh's
arrays, and append the other mesh's indices shifted by `offset`. -/
def merge (m other : MeshQ) : MeshQ :=
  let offset := m.vertices.length / 3
  { vertices := m.vertices ++ other.vertices
    normals := m.normals ++ other.normals
    colors := m.colors ++ other.colors
    indices := m.indices ++ other.indices.map (fun index => index + offset) }

/-- The Mesh invariant of the data model (spec section 3), for a mesh with
`V` vertices: position/normal/color array lengths `3V`/`3V`/`4V`, index list
length a multiple of 3, every index `< V`. -/
def Inv (m : MeshQ) (V : ℕ) : Prop :=
  m.vertices.length = 3 * V ∧ m.normals.length = 3 * V ∧
    m.colors.length = 4 * V ∧ m.indices.length % 3 = 0 ∧
    ∀ i ∈ m.indices, i < V

instance (m : MeshQ) (V : ℕ) : Decidable (Inv m V) := by
  unfold Inv; infer_instance

end MeshQ

/-! ## `physics.py`: the mass-spring cloth simulator -/

/-- Embeds Python `tuple(sorted((a, b)))` on a pair of indices. -/
def sortPairNat (a b : ℕ) : ℕ × ℕ := if a ≤ b then (a, b) else (b, a)

/-- The per-triangle edge list built by the loop of `_build_springs`
(`physics.py` lines 127-134): for every complete chunk of 3 indices, the
three sorted edge pairs; a trailing chunk shorter than 3 is skipped. -/
def triangleEdges : List ℕ → List (ℕ × ℕ)
  | i0 :: i1 :: i2 :: rest =>
      sortPairNat i0 i1 :: sortPairNat i1 i2 :: sortPairNat i2 i0 :: triangleEdges rest
  | _ => []

/-- Lexicographic comparison on index pairs, the order used by Python
`sorted` on 2-tuples. -/
def pairLe (a b : ℕ × ℕ) : Prop := a.1 < b.1 ∨ (a.1 = b.1 ∧ a.2 ≤ b.2)

instance : DecidableRel pairLe := by
  unfold pairLe; infer_instance

/-- Embeds `_build_springs` (`physics.py` lines 125-135): collect the sorted
edge pairs of every complete triangle into a set (here: `dedup`) and return
them sorted; Python's `sorted` is modelled by insertion sort, which returns
the same list on any input under this total order after deduplication. -/
def _build_springs (indices : List ℕ) : List (ℕ × ℕ) :=
  List.insertionSort pairLe ((triangleEdges indices).dedup)

/-- Embeds `_distance` (`physics.py` line 162): the machine square root
(abstracted as `sqrtQ`) of the exactly computed squared distance. -/
def _distance (sqrtQ : ℚ → ℚ) (a b : V3) : ℚ := sqrtQ (V3.normSq (V3.sub a b))

/-- Embeds `_compute_rest_lengths` (`physics.py` lines 138-142): the distance
between the two endpoint positions of every spring, in spring order. -/
def _compute_rest_lengths (sqrtQ : ℚ → ℚ) (springs : List (ℕ × ℕ))
    (positions : List V3) : List ℚ :=
  springs.map (fun s => _distance sqrtQ (positions.getD s.1 V3.zero) (positions.getD s.2 V3.zero))

/-- The machine floating-point transcendental routines, abstracted: theorems
about the simulator quantify over them. -/
structure SimEnv where
  sinQ : ℚ → ℚ
  cosQ : ℚ → ℚ
  sqrtQ : ℚ → ℚ
  piQ : ℚ

/-- Embeds the `ClothSimulator` constructor parameters (`physics.py`
lines 30-40). -/
structure ClothSimParams where
  time_step : ℚ
  steps : ℕ
  damping : ℚ
  stiffness : ℚ

/-- Embeds the `ClothSimulationFrame` dataclass. -/
structure ClothSimulationFrame where
  time : ℚ
  vertices : List ℚ
  deriving DecidableEq, Repr

/-- Embeds the `ClothSimulation` dataclass.  Pinned indices are embedded as
`ℤ` because the caller may pass arbitrary (also negative) integers. -/
structure ClothSimulationQ where
  frames : List ClothSimulationFrame
  frame_rate : ℚ
  pinned_vertices : List ℤ
  deriving DecidableEq, Repr

/-- Embeds the spring-force accumulation loop of `ClothSimulator.simulate`
(`physics.py` lines 77-87), folding over springs paired with their rest
lengths: skip a spring of current length below `1e-6`, otherwise add the
Hookean force to `forces[i]` and subtract it from `forces[j]`. -/
def springForces (env : SimEnv) (stiffness : ℚ) (springs : List ((ℕ × ℕ) × ℚ))
    (positions : List V3) (forces : List V3) : List V3 :=
  springs.foldl
    (fun fs sr =>
      let i := sr.1.1
      let j := sr.1.2
      let delta := V3.sub (positions.getD j V3.zero) (positions.getD i V3.zero)
      let len := env.sqrtQ delta.normSq
      if len < 1/1000000 then fs
      else
        let direction := V3.smul (1/len) delta
        let force := V3.smul (stiffness * (len - sr.2)) direction
        let fs1 := fs.set i (V3.add (fs.getD i V3.zero) force)
        fs1.set j (V3.sub (fs1.getD j V3.zero) force))
    forces

/-- Embeds the per-vertex integration loop (`physics.py` lines 89-95):
`velocity = damping * (velocity + force * dt)` then
`position = position + velocity * dt`, componentwise. -/
def integrate (p : ClothSimParams) (positions velocities forces : List V3) :
    List V3 × List V3 :=
  let newVel := List.zipWith
    (fun v f => V3.smul p.damping (V3.add v (V3.smul p.time_step f))) velocities forces
  let newPos := List.zipWith (fun q v => V3.add q (V3.smul p.time_step v)) positions newVel
  (newPos, newVel)

/-- Embeds the pin-enforcement pass (`physics.py` lines 97-101): each pinned
index has its position snapped back to the base (rest) position and its
velocity zeroed. -/
def enforcePins (basePositions : List V3) (pinnedIdx : List ℤ)
    (positions velocities : List V3) : List V3 × List V3 :=
  pinnedIdx.foldl
    (fun pv idx =>
      (pv.1.set idx.toNat (basePositions.getD idx.toNat V3.zero),
       pv.2.set idx.toNat V3.zero))
    (positions, velocities)

/-- Flattens a list of 3-vectors back into the flat float-list layout. -/
def flatten3 : List V3 → List ℚ
  | [] => []
  | v :: rest => v.x :: v.y :: v.z :: flatten3 rest

/-- One step of the simulation loop (`physics.py` lines 67-104): uniform
gravity/wind/lateral forces, spring forces, integration, pin enforcement,
and the recorded frame (time `step * dt`, positions rounded to 6 decimals). -/
def simStep (env : SimEnv) (p : ClothSimParams) (springsWithRest : List ((ℕ × ℕ) × ℚ))
    (basePositions : List V3) (pinnedIdx : List ℤ) (gravity wind sway : ℚ)
    (step : ℕ) (st : List V3 × List V3) : (List V3 × List V3) × ClothSimulationFrame :=
  let phase : ℚ := (step : ℚ) / ((max (p.steps - 1) 1 : ℕ) : ℚ)
  let gust := env.sinQ (env.piQ * phase * (115/100 + sway * (3/10)))
  let lateral := env.cosQ (env.piQ * phase) * wind * (18/100) * sway
  let baseForce : V3 := ⟨lateral, -gravity, wind * gust⟩
  let forces0 := List.replicate st.1.length baseForce
  let forces := springForces env p.stiffness springsWithRest st.1 forces0
  let integrated := integrate p st.1 st.2 forces
  let pinApplied := enforcePins basePositions pinnedIdx integrated.1 integrated.2
  (pinApplied, ⟨(step : ℚ) * p.time_step, flatten3 (pinApplied.1.map roundV3)⟩)

/-- The simulation loop of `ClothSimulator.simulate` (`physics.py`
lines 67-104): fold `simStep` over the step indices, threading the
(positions, velocities) state and appending each recorded frame. -/
def simLoop (env : SimEnv) (p : ClothSimParams) (springsWithRest : List ((ℕ × ℕ) × ℚ))
    (basePositions : List V3) (pinnedIdx : List ℤ) (gravity wind sway : ℚ)
    (stepIndices : List ℕ) (acc : (List V3 × List V3) × List ClothSimulationFrame) :
    (List V3 × List V3) × List ClothSimulationFrame :=
  stepIndices.foldl
    (fun a step =>
      let out := simStep env p springsWithRest basePositions pinnedIdx
        gravity wind sway step a.1
      (out.1, a.2 ++ [out.2]))
    acc

/-- Embeds `ClothSimulator.simulate` (`physics.py` lines 42-108).  Returns
`none` where the Python raises: vertex data not divisible by 3, or a spring
endpoint out of range of the position list (an `IndexError` in
`_compute_rest_lengths`).  The degenerate early return (empty vertices or
empty indices) yields one zero-time frame with the unmodified input
positions, frame rate 0, and the caller's pinned list unchanged. -/
def simulate (env : SimEnv) (p : ClothSimParams) (meshVertices : List ℚ)
    (meshIndices : List ℕ) (pinned : List ℤ) (features : String → ℚ) :
    Option ClothSimulationQ :=
  if meshVertices = [] ∨ meshIndices = [] then
    some ⟨[⟨0, meshVertices⟩], 0, pinned⟩
  else
    match chunkVectors3 meshVertices with
    | none => none
    | some positions =>
      let springs := _build_springs meshIndices
      if ∀ s ∈ springs, s.1 < positions.length ∧ s.2 < positions.length then
        let restLengths := _compute_rest_lengths env.sqrtQ springs positions
        let pinnedIdx := pinned.filter
          (fun idx => decide (0 ≤ idx ∧ idx < (positions.length : ℤ)))
        let gravity := 38/100 + 25/100 * features ("torso_length")
        let wind := 1/10 + 22/100 * features ("movement_intensity")
        let sway := features ("arm_extension")
        let result := simLoop env p (springs.zip restLengths) positions pinnedIdx
          gravity wind sway (List.range p.steps)
          ((positions, List.replicate positions.length V3.zero), [])
        let frameRate := if p.time_step = 0 then 0 else 1 / p.time_step
        some ⟨result.2, frameRate, pinnedIdx⟩
      else none

/-! ## `pretrained.py`: blend-shape garment synthesis and shading -/

/-- Embeds the `DeformationComponent` dataclass: a per-vertex displacement
field plus a feature-name-to-weight mapping (embedded as an association
list, matching the dict's items). -/
structure DeformationComponent where
  name : String
  vector : List V3
  feature_weights : List (String × ℚ)

/-- Embeds `_compute_component_weight` (`pretrained.py` lines 145-146): the
sum over the component's declared feature names of
`weight(name) * features(name)`; the total feature function captures
`features.get(name, 0.0)`. -/
def _compute_component_weight (weights : List (String × ℚ)) (features : String → ℚ) : ℚ :=
  (weights.map (fun p => p.2 * features p.1)).sum

/-- Embeds `_compute_centroid` (`pretrained.py` lines 157-166): the
componentwise mean, `[0,0,0]` for an empty vertex list. -/
def _compute_centroid (vertices : List V3) : V3 :=
  if vertices = [] then V3.zero
  else
    ⟨(vertices.map (fun v => v.x)).sum / vertices.length,
     (vertices.map (fun v => v.y)).sum / vertices.length,
     (vertices.map (fun v => v.z)).sum / vertices.length⟩

/-- Embeds `_compute_extents` (`pretrained.py` lines 169-182): per-axis
`max - min` over the vertices, each axis extent replaced by `1.0` when it is
below `1e-6`; `[1,1,1]` for an empty list. -/
def _compute_extents (vertices : List V3) : V3 :=
  match vertices with
  | [] => ⟨1, 1, 1⟩
  | v :: rest =>
    let minV := rest.foldl (fun acc w => ⟨min acc.x w.x, min acc.y w.y, min acc.z w.z⟩) v
    let maxV := rest.foldl (fun acc w => ⟨max acc.x w.x, max acc.y w.y, max acc.z w.z⟩) v
    let fix := fun e : ℚ => if 1/1000000 ≤ e then e else 1
    ⟨fix (maxV.x - minV.x), fix (maxV.y - minV.y), fix (maxV.z - minV.z)⟩

/-- Embeds `_compute_scale_vector` (`pretrained.py` lines 149-154):
per-axis `target / base`, with a base below `1e-6` replaced by `1.0`. -/
def _compute_scale_vector (extents targetSize : V3) : V3 :=
  let f := fun (base target : ℚ) => target / (if 1/1000000 ≤ base then base else 1)
  ⟨f extents.x targetSize.x, f extents.y targetSize.y, f extents.z targetSize.z⟩

/-- Embeds the deformation loop of `PretrainedGarmentModel.synthesize`
(`pretrained.py` lines 80-87): each component whose computed weight has
absolute value below `1e-6` is skipped; otherwise `weight * delta` is added
vertexwise.  The loaded model guarantees every component's vector has the
same length as the vertex list (checked in `from_json`). -/
def applyComponents (components : List DeformationComponent) (features : String → ℚ)
    (baseVertices : List V3) : List V3 :=
  components.foldl
    (fun vs c =>
      let weight := _compute_component_weight c.feature_weights features
      if |weight| < 1/1000000 then vs
      else List.zipWith (fun v d => V3.add v (V3.smul weight d)) vs c.vector ++
        vs.drop c.vector.length)
    baseVertices

/-- Embeds the vertex-position part of `PretrainedGarmentModel.synthesize`
(`pretrained.py` lines 79-94): apply deformation components to the base
vertices, then recenter by the base centroid, rescale by the per-axis scale
vector derived from the base extents, and translate to the target center. -/
def synthesizeVertices (baseVertices : List V3) (components : List DeformationComponent)
    (features : String → ℚ) (targetCenter targetSize : V3) : List V3 :=
  let vertices := applyComponents components features baseVertices
  let centroid := _compute_centroid baseVertices
  let scaleVector := _compute_scale_vector (_compute_extents baseVertices) targetSize
  vertices.map
    (fun v =>
      ⟨(v.x - centroid.x) * scaleVector.x + targetCenter.x,
       (v.y - centroid.y) * scaleVector.y + targetCenter.y,
       (v.z - centroid.z) * scaleVector.z + targetCenter.z⟩)

/-- An RGBA color, one entry of the per-vertex color list. -/
structure ColorQ where
  r : ℚ
  g : ℚ
  b : ℚ
  a : ℚ
  deriving DecidableEq, Repr

/-- The per-vertex body of the `_shade_vertices` loop (`pretrained.py`
lines 247-265), exactly as the source computes it: the shading factor
(height term, drape term, normal-z term) is clamped to `[0.4, 1.3]`, each
channel is `clamp(base * shading + wrinkle, 0, 1)` with the wrinkle term
added after the multiplication, then the occlusion darkening branches
(guarded by Python truthiness, i.e. a nonzero occlusion feature) apply, and
the alpha is appended unchanged. -/
def shadeOne (baseRgb : V3) (alpha minH span drape movement occL occR cx : ℚ)
    (v n : V3) : ColorQ :=
  let normalizedHeight := (v.y - minH) / span
  let shading0 := 72/100 + 25/100 * (1 - normalizedHeight) + drape
  let shading1 := shading0 + 8/100 * max n.z 0
  let wrinkle := 12/100 * movement * |n.x|
  let shading := clampQ shading1 (4/10) (13/10)
  let rgb0 : V3 :=
    ⟨clampQ (baseRgb.x * shading + wrinkle) 0 1,
     clampQ (baseRgb.y * shading + wrinkle) 0 1,
     clampQ (baseRgb.z * shading + wrinkle) 0 1⟩
  let rgb :=
    if v.x < cx ∧ occL ≠ 0 then
      let factor := max 0 (1 - 15/100 * occL)
      V3.mk (clampQ (rgb0.x * factor) 0 1) (clampQ (rgb0.y * factor) 0 1)
        (clampQ (rgb0.z * factor) 0 1)
    else if cx ≤ v.x ∧ occR ≠ 0 then
      let factor := max 0 (1 - 15/100 * occR)
      V3.mk (clampQ (rgb0.x * factor) 0 1) (clampQ (rgb0.y * factor) 0 1)
        (clampQ (rgb0.z * factor) 0 1)
    else rgb0
  ⟨rgb.x, rgb.y, rgb.z, alpha⟩

/-- Embeds `_shade_vertices` (`pretrained.py` lines 225-266): empty input
yields an empty list; otherwise the vertical extent is computed over all
vertex heights and every (vertex, normal) pair is shaded by `shadeOne`. -/
def _shade_vertices (vertices normals : List V3) (baseColor : ColorQ)
    (features : String → ℚ) (targetCenter : V3) : List ColorQ :=
  match vertices with
  | [] => []
  | v0 :: _ =>
    let heights := vertices.map (fun v => v.y)
    let minH := heights.foldl min v0.y
    let maxH := heights.foldl max v0.y
    let span := max (maxH - minH) (1/100000)
    let drape := features ("torso_length") * (25/100)
    let movement := features ("movement_intensity")
    let occL := features ("occlusion_left")
    let occR := features ("occlusion_right")
    (List.zip vertices normals).map
      (fun vn => shadeOne ⟨baseColor.r, baseColor.g, baseColor.b⟩ baseColor.a minH span
        drape movement occL occR targetCenter.x vn.1 vn.2)

/-- Modelled from the claim text (the shading pipeline exactly as claim C2
words it, for comparison with the source's `_shade_vertices`): the wrinkle
term is added INTO the shading factor before the clamp to `[0.4, 1.3]`, and
the clamped factor alone is multiplied into the base RGB. -/
def shadeOneClaimC2 (baseRgb : V3) (alpha minH span drape movement : ℚ)
    (v n : V3) : ColorQ :=
  let normalizedHeight := (v.y - minH) / span
  let shading := clampQ
    (72/100 + 25/100 * (1 - normalizedHeight) + drape + 8/100 * max n.z 0 +
      12/100 * movement * |n.x|) (4/10) (13/10)
  ⟨clampQ (baseRgb.x * shading) 0 1, clampQ (baseRgb.y * shading) 0 1,
    clampQ (baseRgb.z * shading) 0 1, alpha⟩

/-- The claim-C2 shading pipeline lifted to vertex lists, with the same
extent computation as the source. -/
def shadeVerticesClaimC2 (vertices normals : List V3) (baseColor : ColorQ)
    (features : String → ℚ) : List ColorQ :=
  match vertices with
  | [] => []
  | v0 :: _ =>
    let heights := vertices.map (fun v => v.y)
    let minH := heights.foldl min v0.y
    let maxH := heights.foldl max v0.y
    let span := max (maxH - minH) (1/100000)
    let drape := features ("torso_length") * (25/100)
    let movement := features ("movement_intensity")
    (List.zip vertices normals).map
      (fun vn => shadeOneClaimC2 ⟨baseColor.r, baseColor.g, baseColor.b⟩ baseColor.a minH
        span drape movement vn.1 vn.2)

/-- The per-vertex shading as the source actually computes it with both
occlusion features zero (the amended C2 formula): channel =
`clamp(base * clamp(shading, 0.4, 1.3) + wrinkle, 0, 1)`. -/
def shadeOneAmendedC2 (baseRgb : V3) (alpha minH span drape movement : ℚ)
    (v n : V3) : ColorQ :=
  let normalizedHeight := (v.y - minH) / span
  let shading := clampQ (72/100 + 25/100 * (1 - normalizedHeight) + drape +
    8/100 * max n.z 0) (4/10) (13/10)
  let wrinkle := 12/100 * movement * |n.x|
  ⟨clampQ (baseRgb.x * shading + wrinkle) 0 1,
    clampQ (baseRgb.y * shading + wrinkle) 0 1,
    clampQ (baseRgb.z * shading + wrinkle) 0 1, alpha⟩

/-- The amended C2 shading pipeline lifted to vertex lists. -/
def shadeVerticesAmendedC2 (vertices normals : List V3) (baseColor : ColorQ)
    (features : String → ℚ) : List ColorQ :=
  match vertices with
  | [] => []
  | v0 :: _ =>
    let heights := vertices.map (fun v => v.y)
    let minH := heights.foldl min v0.y
    let maxH := heights.foldl max v0.y
    let span := max (maxH - minH) (1/100000)
    let drape := features ("torso_length") * (25/100)
    let movement := features ("movement_intensity")
    (List.zip vertices normals).map
      (fun vn => shadeOneAmendedC2 ⟨baseColor.r, baseColor.g, baseColor.b⟩ baseColor.a minH
        span drape movement vn.1 vn.2)

/-! ## `render.py`: binary scene export -/

/-- Little-endian byte encoding of a value into `width` bytes. -/
def packLE (width value : ℕ) : List ℕ :=
  (List.range width).map (fun k => value / 256 ^ k % 256)

/-- Embeds `_pack_indices` (`render.py` lines 108-111): pack every index as
2 bytes (`"<H"`) when `use_short`, else 4 bytes (`"<I"`), little-endian;
`struct.pack` raises (here: `none`) when an index does not fit the width. -/
def _pack_indices (indices : List ℕ) (use_short : Bool) : Option (List ℕ) :=
  if use_short then
    if ∀ i ∈ indices, i < 65536 then some ((indices.map (packLE 2)).flatten) else none
  else
    if ∀ i ∈ indices, i < 4294967296 then some ((indices.map (packLE 4)).flatten) else none

/-- The parts of the exported glTF document the verified claims speak about:
the vertex count, the byte lengths of the three float regions (always
4 bytes per packed float), the declared index component type, the packed
index bytes, and the index accessor's element count. -/
structure GltfDoc where
  vertexCount : ℕ
  positionsByteLength : ℕ
  normalsByteLength : ℕ
  colorsByteLength : ℕ
  indexComponentType : ℕ
  indexData : List ℕ
  indexAccessorCount : ℕ
  deriving DecidableEq, Repr

/-- The failure conditions of scene export. -/
inductive ExportErr where
  | invalidInput
  | packOverflow
  deriving DecidableEq, Repr

/-- Embeds `export_gltf` (`render.py` lines 24-79): raise `InvalidInput`
(`ValueError("Mesh is empty")`) when the vertex count is zero — this guard
runs before anything is packed or written — otherwise choose the index
component type by vertex count (`5123` = unsigned 16-bit when
`vertex_count < 65536`, else `5125` = unsigned 32-bit) and pack the indices
at that width (the source passes `use_short = (component_type == 5123)`,
which holds exactly when `vertex_count < 65536`).  Float regions pack at 4 bytes per value unconditionally;
their IEEE bit patterns are outside this rational embedding, so only their
byte lengths are recorded. -/
def export_gltf (mesh : MeshQ) : Except ExportErr GltfDoc :=
  if mesh.vertex_count = 0 then Except.error ExportErr.invalidInput
  else
    match _pack_indices mesh.indices (decide (mesh.vertex_count < 65536)) with
    | none => Except.error ExportErr.packOverflow
    | some data =>
      Except.ok
        { vertexCount := mesh.vertex_count
          positionsByteLength := 4 * mesh.vertices.length
          normalsByteLength := 4 * mesh.normals.length
          colorsByteLength := 4 * mesh.colors.length
          indexComponentType := if mesh.vertex_count < 65536 then 5123 else 5125
          indexData := data
          indexAccessorCount := mesh.indices.length }

/-! ## `tryon_service.py`: pipeline-level simulation failure handling -/

/-- Where, if anywhere, a failure is raised inside the simulation stage's
`try` block of `TryOnPipeline.run` (`tryon_service.py` lines 61-78): the
call to `ClothSimulator.simulate`, or the call to `export_simulation` after
`simulation_path` has already been assigned. -/
inductive SimStageOutcome where
  | success
  | raiseInSimulate
  | raiseInExport
  deriving DecidableEq, Repr

/-- The artifacts of `TryOnPipeline.run` as the verified claim speaks about
them: the scene and preview paths, the optional simulation path, and
whether the returned metadata carries a `simulation` entry. -/
structure TryOnArtifactsM where
  model_path : String
  preview_path : String
  simulation_path : Option String
  metadata_has_simulation : Bool
  deriving DecidableEq, Repr

/-- Embeds the control flow of `TryOnPipeline.run` after the scene and
preview exports succeed (`tryon_service.py` lines 54-105): the simulation
stage runs only when the garment mesh has indices; any exception inside its
`try` block is caught and logged, never re-raised, and the run returns.
`simulation_path` is `None` until line 69 assigns it, so a failure in
`simulate` leaves it `None` while a failure in `export_simulation` leaves
it pointing at the animation file; `simulation_metadata` is only assigned
on full success, so the metadata carries a `simulation` entry only then. -/
def runSimStage (garmentHasIndices : Bool) (outcome : SimStageOutcome) : TryOnArtifactsM :=
  if garmentHasIndices then
    match outcome with
    | SimStageOutcome.success =>
      { model_path := "scene.gltf", preview_path := "preview.svg",
        simulation_path := some ("cloth_simulation.json"), metadata_has_simulation := true }
    | SimStageOutcome.raiseInSimulate =>
      { model_path := "scene.gltf", preview_path := "preview.svg",
        simulation_path := none, metadata_has_simulation := false }
    | SimStageOutcome.raiseInExport =>
      { model_path := "scene.gltf", preview_path := "preview.svg",
        simulation_path := some ("cloth_simulation.json"), metadata_has_simulation := false }
  else
    { model_path := "scene.gltf", preview_path := "preview.svg",
      simulation_path := none, metadata_has_simulation := false }

/-! ## Theorems -/

/-- Claim C1: for meshes A (Va vertices) and B (Vb vertices) each satisfying
the Mesh invariant, `Mesh.merge` appends B's vertex, normal, and color
arrays to A's, rewrites every index originating from B by adding A's
pre-merge vertex count Va, yields exactly Va+Vb vertices, and every index
of the merged mesh is valid (< Va+Vb). -/
theorem c1_merge_appends_offsets_and_preserves_validity
    (A B : MeshQ) (Va Vb : ℕ) (hA : A.Inv Va) (hB : B.Inv Vb) :
    (A.merge B).vertices = A.vertices ++ B.vertices ∧
    (A.merge B).normals = A.normals ++ B.normals ∧
    (A.merge B).colors = A.colors ++ B.colors ∧
    (A.merge B).indices = A.indices ++ B.indices.map (fun i => i + Va) ∧
    (A.merge B).vertex_count = Va + Vb ∧
    ∀ i ∈ (A.merge B).indices, i < Va + Vb := by
  obtain ⟨hAv, hAn, hAc, hAm, hAi⟩ := hA
  obtain ⟨hBv, hBn, hBc, hBm, hBi⟩ := hB
  have hoff : A.vertices.length / 3 = Va := by rw [hAv]; omega
  refine ⟨rfl, rfl, rfl, ?_, ?_, ?_⟩
  · simp [MeshQ.merge, hoff]
  · simp [MeshQ.merge, MeshQ.vertex_count, List.length_append, hAv, hBv]
    omega
  · intro i hi
    simp only [MeshQ.merge, hoff, List.mem_append, List.mem_map] at hi
    rcases hi with hiA | ⟨j, hjB, rfl⟩
    · exact lt_of_lt_of_le (hAi i hiA) (Nat.le_add_right Va Vb)
    · have := hBi j hjB
      omega

/-- Witness for C1 at a concrete pair of one-vertex meshes. -/
theorem c1_merge_witness :
    MeshQ.Inv ⟨[0, 0, 0], [0, 0, 1], [1, 0, 0, 1], [0, 0, 0]⟩ 1 ∧
    MeshQ.Inv ⟨[2, 2, 2], [0, 1, 0], [0, 1, 0, 1], [0, 0, 0]⟩ 1 ∧
    ((MeshQ.mk [0, 0, 0] [0, 0, 1] [1, 0, 0, 1] [0, 0, 0]).merge
        ⟨[2, 2, 2], [0, 1, 0], [0, 1, 0, 1], [0, 0, 0]⟩).vertex_count = 1 + 1 :=
  ⟨by decide, by decide,
    (c1_merge_appends_offsets_and_preserves_validity
      ⟨[0, 0, 0], [0, 0, 1], [1, 0, 0, 1], [0, 0, 0]⟩
      ⟨[2, 2, 2], [0, 1, 0], [0, 1, 0, 1], [0, 0, 0]⟩ 1 1
      (by decide) (by decide)).2.2.2.2.1⟩

theorem sortPairNat_le (a b : ℕ) : (sortPairNat a b).1 ≤ (sortPairNat a b).2 := by
  unfold sortPairNat; split <;> simp <;> omega

theorem sortPairNat_comm (a b : ℕ) : sortPairNat a b = sortPairNat b a := by
  unfold sortPairNat
  split <;> split <;> simp_all [Prod.ext_iff] <;> omega

theorem triangleEdges_canonical :
    ∀ (indices : List ℕ), ∀ p ∈ triangleEdges indices, p.1 ≤ p.2
  | i0 :: i1 :: i2 :: rest, p, hp => by
      simp only [triangleEdges, List.mem_cons] at hp
      rcases hp with rfl | rfl | rfl | h
      · exact sortPairNat_le i0 i1
      · exact sortPairNat_le i1 i2
      · exact sortPairNat_le i2 i0
      · exact triangleEdges_canonical rest p h
  | [], p, hp => by simp [triangleEdges] at hp
  | [a], p, hp => by simp [triangleEdges] at hp
  | [a, b], p, hp => by simp [triangleEdges] at hp

theorem mem_zip_map_self {α β : Type} (f : α → β) :
    ∀ (l : List α), ∀ p ∈ l.zip (l.map f), p.2 = f p.1
  | a :: t, p, hp => by
      simp only [List.map_cons, List.zip_cons_cons, List.mem_cons] at hp
      rcases hp with rfl | h
      · rfl
      · exact mem_zip_map_self f t p h
  | [], p, hp => by simp at hp

/-- Claim C3: the spring set contains each undirected edge of each complete
triangle exactly once — every stored pair is in canonical sorted form
(`fst ≤ snd`, with `sortPairNat` symmetric in its arguments), the list has
no duplicates, and a pair belongs to the springs exactly when it is one of
the per-triangle edges — and every spring's rest length, as paired with the
springs downstream, equals the Euclidean distance (the machine square root
`sqrtQ` of the exactly computed squared distance) between its two endpoint
vertices in the initial undeformed position list. -/
theorem c3_springs_dedup_and_rest_lengths (indices : List ℕ) (positions : List V3)
    (sqrtQ : ℚ → ℚ) :
    (_build_springs indices).Nodup ∧
    (∀ i j : ℕ, sortPairNat i j = sortPairNat j i) ∧
    (∀ p ∈ _build_springs indices, p.1 ≤ p.2) ∧
    (∀ p : ℕ × ℕ, p ∈ _build_springs indices ↔ p ∈ triangleEdges indices) ∧
    (∀ sr ∈ (_build_springs indices).zip
        (_compute_rest_lengths sqrtQ (_build_springs indices) positions),
      sr.2 = _distance sqrtQ (positions.getD sr.1.1 V3.zero)
        (positions.getD sr.1.2 V3.zero)) := by
  have hperm := List.perm_insertionSort pairLe ((triangleEdges indices).dedup)
  have hmem : ∀ p : ℕ × ℕ, p ∈ _build_springs indices ↔ p ∈ triangleEdges indices := by
    intro p
    unfold _build_springs
    exact hperm.mem_iff.trans (List.mem_dedup)
  refine ⟨?_, sortPairNat_comm, ?_, hmem, ?_⟩
  · exact hperm.nodup_iff.mpr (List.nodup_dedup _)
  · intro p hp
    exact triangleEdges_canonical indices p ((hmem p).mp hp)
  · exact mem_zip_map_self _ (_build_springs indices)

/-- Witness for C3 on a single concrete triangle. -/
theorem c3_witness :
    (((0, 1), (0 : ℚ)) ∈ (_build_springs [0, 1, 2]).zip
        (_compute_rest_lengths (fun _ => 0) (_build_springs [0, 1, 2])
          [V3.mk 0 0 0, V3.mk 1 0 0, V3.mk 0 1 0])) ∧
    (0 : ℚ) = _distance (fun _ => 0)
        (List.getD [V3.mk 0 0 0, V3.mk 1 0 0, V3.mk 0 1 0] 0 V3.zero)
        (List.getD [V3.mk 0 0 0, V3.mk 1 0 0, V3.mk 0 1 0] 1 V3.zero) :=
  ⟨by decide,
    (c3_springs_dedup_and_rest_lengths [0, 1, 2]
        [V3.mk 0 0 0, V3.mk 1 0 0, V3.mk 0 1 0] (fun _ => 0)).2.2.2.2
      ((0, 1), 0) (by decide)⟩

theorem compute_component_weight_zero (weights : List (String × ℚ)) (features : String → ℚ)
    (h : ∀ p ∈ weights, p.2 = 0) : _compute_component_weight weights features = 0 := by
  unfold _compute_component_weight
  apply List.sum_eq_zero
  intro x hx
  obtain ⟨p, hp, rfl⟩ := List.mem_map.mp hx
  rw [h p hp, zero_mul]

theorem applyComponents_all_zero (features : String → ℚ) :
    ∀ (components : List DeformationComponent) (base : List V3),
      (∀ c ∈ components, _compute_component_weight c.feature_weights features = 0) →
      applyComponents components features base = base
  | [], base, _ => rfl
  | c :: t, base, h => by
      unfold applyComponents
      rw [List.foldl_cons]
      have hc : _compute_component_weight c.feature_weights features = 0 :=
        h c (List.mem_cons_self c t)
      rw [hc]
      have : |(0 : ℚ)| < 1/1000000 := by norm_num
      rw [if_pos this]
      exact applyComponents_all_zero features t base (fun d hd => h d (List.mem_cons_of_mem c hd))

/-- Claim C5: when every deformation component's feature weights are all
zero, each component's weight computes to 0 (so its application is skipped)
for every feature assignment, and synthesis maps each base vertex to
exactly `(base_vertex - base_centroid) * scale_vector + target_center`. -/
theorem c5_zero_weight_components_only_rescale
    (baseVertices : List V3) (components : List DeformationComponent)
    (features : String → ℚ) (targetCenter targetSize : V3)
    (hzero : ∀ c ∈ components, ∀ p ∈ c.feature_weights, p.2 = 0) :
    (∀ c ∈ components, _compute_component_weight c.feature_weights features = 0) ∧
    synthesizeVertices baseVertices components features targetCenter targetSize =
      baseVertices.map (fun v =>
        V3.mk
          ((v.x - (_compute_centroid baseVertices).x) *
            (_compute_scale_vector (_compute_extents baseVertices) targetSize).x +
            targetCenter.x)
          ((v.y - (_compute_centroid baseVertices).y) *
            (_compute_scale_vector (_compute_extents baseVertices) targetSize).y +
            targetCenter.y)
          ((v.z - (_compute_centroid baseVertices).z) *
            (_compute_scale_vector (_compute_extents baseVertices) targetSize).z +
            targetCenter.z)) := by
  have hw : ∀ c ∈ components, _compute_component_weight c.feature_weights features = 0 :=
    fun c hc => compute_component_weight_zero c.feature_weights features (hzero c hc)
  refine ⟨hw, ?_⟩
  unfold synthesizeVertices
  rw [applyComponents_all_zero features components baseVertices hw]

/-- Witness for C5 at a concrete one-vertex model with one all-zero-weight
component. -/
theorem c5_witness :
    (∀ c ∈ [DeformationComponent.mk "drape" [V3.mk 1 1 1] [("torso_length", 0)]],
      ∀ p ∈ c.feature_weights, p.2 = 0) ∧
    synthesizeVertices [V3.mk 1 2 3]
        [DeformationComponent.mk "drape" [V3.mk 1 1 1] [("torso_length", 0)]]
        (fun _ => 5) (V3.mk 0 0 0) (V3.mk 1 1 1) =
      [V3.mk 1 2 3].map (fun v =>
        V3.mk
          ((v.x - (_compute_centroid [V3.mk 1 2 3]).x) *
            (_compute_scale_vector (_compute_extents [V3.mk 1 2 3]) (V3.mk 1 1 1)).x + 0)
          ((v.y - (_compute_centroid [V3.mk 1 2 3]).y) *
            (_compute_scale_vector (_compute_extents [V3.mk 1 2 3]) (V3.mk 1 1 1)).y + 0)
          ((v.z - (_compute_centroid [V3.mk 1 2 3]).z) *
            (_compute_scale_vector (_compute_extents [V3.mk 1 2 3]) (V3.mk 1 1 1)).z + 0)) :=
  ⟨by decide,
    (c5_zero_weight_components_only_rescale [V3.mk 1 2 3]
      [DeformationComponent.mk "drape" [V3.mk 1 1 1] [("torso_length", 0)]]
      (fun _ => 5) (V3.mk 0 0 0) (V3.mk 1 1 1) (by decide)).2⟩

theorem shadeOne_no_occlusion (baseRgb : V3) (alpha minH span drape movement cx : ℚ)
    (v n : V3) :
    shadeOne baseRgb alpha minH span drape movement 0 0 cx v n =
      shadeOneAmendedC2 baseRgb alpha minH span drape movement v n := by
  unfold shadeOne shadeOneAmendedC2
  simp

theorem shadeOne_alpha (baseRgb : V3) (alpha minH span drape movement occL occR cx : ℚ)
    (v n : V3) :
    (shadeOne baseRgb alpha minH span drape movement occL occR cx v n).a = alpha := by
  unfold shadeOne
  rfl

/-- Claim C2, amended: the per-vertex alpha always equals the garment
color's alpha unchanged; and, when both occlusion features are zero, every
per-vertex color is the garment base RGB multiplied by the shading factor
`0.72 + 0.25*(1 - normalized_height) + drape_factor + 0.08*max(normal_z,0)`
clamped to `[0.4, 1.3]`, with the wrinkle term
`0.12*movement_intensity*|normal_x|` ADDED to each resulting channel after
that multiplication, each channel then clamped to `[0, 1]` (the source adds
the wrinkle per channel after the clamp-and-multiply, not into the shading
factor before the clamp as the spec words it). -/
theorem c2_shading_amended (vertices normals : List V3) (baseColor : ColorQ)
    (features : String → ℚ) (targetCenter : V3)
    (hL : features ("occlusion_left") = 0) (hR : features ("occlusion_right") = 0) :
    (∀ (featuresAny : String → ℚ) (tc : V3),
      ∀ col ∈ _shade_vertices vertices normals baseColor featuresAny tc,
        col.a = baseColor.a) ∧
    _shade_vertices vertices normals baseColor features targetCenter =
      shadeVerticesAmendedC2 vertices normals baseColor features := by
  constructor
  · intro featuresAny tc col hcol
    cases vertices with
    | nil => simp [_shade_vertices] at hcol
    | cons v0 rest =>
      simp only [_shade_vertices] at hcol
      obtain ⟨vn, _, rfl⟩ := List.mem_map.mp hcol
      exact shadeOne_alpha _ _ _ _ _ _ _ _ _ _ _
  · cases vertices with
    | nil => rfl
    | cons v0 rest =>
      simp only [_shade_vertices, shadeVerticesAmendedC2, hL, hR]
      exact congrArg (fun F => List.map F _)
        (funext fun vn => shadeOne_no_occlusion _ _ _ _ _ _ _ vn.1 vn.2)

set_option maxHeartbeats 1000000 in
/-- Counterexample to claim C2 as stated: on a single vertex with normal
`(1, 0, 0)`, garment color `(0.5, 0, 0, 1)`, `movement_intensity = 1` and
all other features 0, the source computes the red channel
`clamp(0.5 * clamp(0.97, 0.4, 1.3) + 0.12, 0, 1) = 0.605`, while the
claimed pipeline (wrinkle added into the shading factor before the clamp
and multiplication) yields `clamp(0.5 * clamp(1.09, 0.4, 1.3), 0, 1) =
0.545`. -/
theorem c2_counterexample :
    _shade_vertices [V3.mk 0 0 0] [V3.mk 1 0 0] (ColorQ.mk (1/2) 0 0 1)
        (fun s => if s = "movement_intensity" then 1 else 0) (V3.mk 0 0 0) ≠
      shadeVerticesClaimC2 [V3.mk 0 0 0] [V3.mk 1 0 0] (ColorQ.mk (1/2) 0 0 1)
        (fun s => if s = "movement_intensity" then 1 else 0) := by
  have hcode : _shade_vertices [V3.mk 0 0 0] [V3.mk 1 0 0] (ColorQ.mk (1/2) 0 0 1)
      (fun s => if s = "movement_intensity" then 1 else 0) (V3.mk 0 0 0) =
      [ColorQ.mk (121/200) (3/25) (3/25) 1] := by
    unfold _shade_vertices
    simp only [List.map_cons, List.map_nil, List.foldl_cons, List.foldl_nil,
      List.zip_cons_cons, List.zip_nil_right]
    norm_num [String.reduceEq]
    unfold shadeOne clampQ
    simp only [String.reduceEq, if_false]
    norm_num
  have hclaim : shadeVerticesClaimC2 [V3.mk 0 0 0] [V3.mk 1 0 0] (ColorQ.mk (1/2) 0 0 1)
      (fun s => if s = "movement_intensity" then 1 else 0) =
      [ColorQ.mk (109/200) 0 0 1] := by
    unfold shadeVerticesClaimC2
    simp only [List.map_cons, List.map_nil, List.foldl_cons, List.foldl_nil,
      List.zip_cons_cons, List.zip_nil_right]
    norm_num [String.reduceEq]
    unfold shadeOneClaimC2 clampQ
    simp only [String.reduceEq, if_false]
    norm_num
  rw [hcode, hclaim]
  norm_num

/-- Witness for the amended C2 at a concrete one-vertex input with the
all-zero feature assignment. -/
theorem c2_witness :
    ((fun _ : String => (0 : ℚ)) ("occlusion_left") = 0) ∧
    ((fun _ : String => (0 : ℚ)) ("occlusion_right") = 0) ∧
    ((∀ (featuresAny : String → ℚ) (tc : V3),
        ∀ col ∈ _shade_vertices [V3.mk 0 0 0] [V3.mk 0 0 1] (ColorQ.mk 1 1 1 (1/2))
            featuresAny tc, col.a = (ColorQ.mk 1 1 1 (1/2)).a) ∧
      _shade_vertices [V3.mk 0 0 0] [V3.mk 0 0 1] (ColorQ.mk 1 1 1 (1/2))
          (fun _ => 0) (V3.mk 0 0 0) =
        shadeVerticesAmendedC2 [V3.mk 0 0 0] [V3.mk 0 0 1] (ColorQ.mk 1 1 1 (1/2))
          (fun _ => 0)) :=
  ⟨rfl, rfl,
    c2_shading_amended [V3.mk 0 0 0] [V3.mk 0 0 1] (ColorQ.mk 1 1 1 (1/2))
      (fun _ => 0) (V3.mk 0 0 0) rfl rfl⟩


theorem packLE_length (width value : ℕ) : (packLE width value).length = width := by
  simp [packLE]

theorem flatten_map_packLE_length (width : ℕ) :
    ∀ (l : List ℕ), ((l.map (packLE width)).flatten).length = width * l.length
  | [] => by simp
  | i :: t => by
      simp only [List.map_cons, List.flatten_cons, List.length_append, packLE_length,
        List.length_cons, flatten_map_packLE_length width t]
      ring

/-- Claim C9: scene export fails with the InvalidInput condition exactly
when the mesh has zero vertices; the guard runs before anything is packed
or written, and with at least one vertex this error branch is never taken
(any later failure is a different condition). -/
theorem c9_export_invalid_iff_empty (mesh : MeshQ) :
    export_gltf mesh = Except.error ExportErr.invalidInput ↔ mesh.vertex_count = 0 := by
  unfold export_gltf
  by_cases h : mesh.vertex_count = 0
  · simp [h]
  · simp only [h, if_neg h, iff_false]
    cases hp : _pack_indices mesh.indices (decide (mesh.vertex_count < 65536)) <;>
      simp [hp]

/-- Claim C8: for a mesh satisfying the invariant with a nonzero vertex
count, scene export succeeds and chooses the index component width solely
by vertex count — fewer than 65536 vertices gives 16-bit (component type
5123, 2 bytes per index), 65536 or more gives 32-bit (component type 5125,
4 bytes per index, given the indices fit 32 bits) — the packed data is the
concatenation of the little-endian encodings at that width, and the
declared accessor count and byte length match the packed width. -/
theorem c8_index_component_width (mesh : MeshQ) (V : ℕ) (hInv : mesh.Inv V)
    (hne : V ≠ 0) (h32 : ∀ i ∈ mesh.indices, i < 2 ^ 32) :
    ∃ doc : GltfDoc, export_gltf mesh = Except.ok doc ∧
      doc.indexComponentType = (if V < 65536 then 5123 else 5125) ∧
      doc.indexData = (mesh.indices.map (packLE (if V < 65536 then 2 else 4))).flatten ∧
      doc.indexData.length = (if V < 65536 then 2 else 4) * mesh.indices.length ∧
      doc.indexAccessorCount = mesh.indices.length := by
  obtain ⟨hv, -, -, -, hidx⟩ := hInv
  have hvc : mesh.vertex_count = V := by
    unfold MeshQ.vertex_count
    rw [hv]
    omega
  unfold export_gltf
  rw [hvc, if_neg hne]
  by_cases hsmall : V < 65536
  · have hall : ∀ i ∈ mesh.indices, i < 65536 := by
      intro i hi
      have := hidx i hi
      omega
    have hpack : _pack_indices mesh.indices (decide (V < 65536)) =
        some ((mesh.indices.map (packLE 2)).flatten) := by
      rw [decide_eq_true hsmall]
      simp only [_pack_indices, if_true]
      rw [if_pos hall]
    rw [hpack]
    exact ⟨_, rfl, by simp [hsmall], by simp [hsmall],
      by simp only [if_pos hsmall]; exact flatten_map_packLE_length 2 mesh.indices, rfl⟩
  · have hall : ∀ i ∈ mesh.indices, i < 4294967296 := by
      intro i hi
      have := h32 i hi
      omega
    have hpack : _pack_indices mesh.indices (decide (V < 65536)) =
        some ((mesh.indices.map (packLE 4)).flatten) := by
      rw [decide_eq_false hsmall]
      simp only [_pack_indices, Bool.false_eq_true, if_false]
      rw [if_pos hall]
    rw [hpack]
    exact ⟨_, rfl, by simp [hsmall], by simp [hsmall],
      by simp only [if_neg hsmall]; exact flatten_map_packLE_length 4 mesh.indices, rfl⟩

/-- Witness for C8 at a one-vertex, one-triangle mesh. -/
theorem c8_witness :
    MeshQ.Inv ⟨[0, 0, 0], [0, 0, 1], [1, 0, 0, 1], [0, 0, 0]⟩ 1 ∧ (1 : ℕ) ≠ 0 ∧
    (∀ i ∈ ([0, 0, 0] : List ℕ), i < 2 ^ 32) ∧
    (∃ doc : GltfDoc,
      export_gltf ⟨[0, 0, 0], [0, 0, 1], [1, 0, 0, 1], [0, 0, 0]⟩ = Except.ok doc ∧
      doc.indexComponentType = (if 1 < 65536 then 5123 else 5125) ∧
      doc.indexData = (([0, 0, 0] : List ℕ).map (packLE (if 1 < 65536 then 2 else 4))).flatten ∧
      doc.indexData.length = (if 1 < 65536 then 2 else 4) * ([0, 0, 0] : List ℕ).length ∧
      doc.indexAccessorCount = ([0, 0, 0] : List ℕ).length) :=
  ⟨by decide, by decide, by decide,
    c8_index_component_width ⟨[0, 0, 0], [0, 0, 1], [1, 0, 0, 1], [0, 0, 0]⟩ 1
      (by decide) (by decide) (by decide)⟩

/-- Counterexample to claim C7 as stated: when the failure is raised inside
`export_simulation` (after line 69 of `tryon_service.py` has already
assigned `simulation_path`), the returned artifacts carry the animation
file path rather than `None`. -/
theorem c7_counterexample :
    (runSimStage true SimStageOutcome.raiseInExport).simulation_path ≠ none := by
  simp [runSimStage]

/-- Claim C7, amended: any failure inside the simulation stage's `try`
block is caught, the run still returns artifacts with the scene and
preview paths, and no `simulation` entry appears in the metadata; the
simulation path is `None` when the failure occurs inside
`ClothSimulator.simulate`, but when the failure occurs inside
`export_simulation` the path has already been assigned and is returned
pointing at the (possibly absent or partial) animation file. -/
theorem c7_simulation_failure_amended (hasIndices : Bool) (o : SimStageOutcome)
    (ho : o ≠ SimStageOutcome.success) :
    (runSimStage hasIndices o).model_path = "scene.gltf" ∧
    (runSimStage hasIndices o).preview_path = "preview.svg" ∧
    (runSimStage hasIndices o).metadata_has_simulation = false ∧
    (o = SimStageOutcome.raiseInSimulate →
      (runSimStage hasIndices o).simulation_path = none) ∧
    (hasIndices = true → o = SimStageOutcome.raiseInExport →
      (runSimStage hasIndices o).simulation_path = some ("cloth_simulation.json")) := by
  cases hasIndices <;> cases o <;> simp_all [runSimStage]

/-- Witness for the amended C7 at a failure inside the simulate call. -/
theorem c7_witness :
    (SimStageOutcome.raiseInSimulate ≠ SimStageOutcome.success) ∧
    ((runSimStage true SimStageOutcome.raiseInSimulate).model_path = "scene.gltf" ∧
     (runSimStage true SimStageOutcome.raiseInSimulate).preview_path = "preview.svg" ∧
     (runSimStage true SimStageOutcome.raiseInSimulate).metadata_has_simulation = false ∧
     (SimStageOutcome.raiseInSimulate = SimStageOutcome.raiseInSimulate →
       (runSimStage true SimStageOutcome.raiseInSimulate).simulation_path = none) ∧
     (true = true → SimStageOutcome.raiseInSimulate = SimStageOutcome.raiseInExport →
       (runSimStage true SimStageOutcome.raiseInSimulate).simulation_path =
         some ("cloth_simulation.json"))) :=
  ⟨by decide, c7_simulation_failure_amended true SimStageOutcome.raiseInSimulate (by decide)⟩

/-- The `q`-th vertex triple of a flat vertex list (components `3q`,
`3q+1`, `3q+2`). -/
def getVertex3 (l : List ℚ) (q : ℕ) : V3 :=
  ⟨l.getD (3 * q) 0, l.getD (3 * q + 1) 0, l.getD (3 * q + 2) 0⟩

theorem flatten3_getVertex3 :
    ∀ (l : List V3) (q : ℕ), q < l.length →
      getVertex3 (flatten3 l) q = l.getD q V3.zero
  | v :: rest, 0, _ => by simp [flatten3, getVertex3]
  | v :: rest, q + 1, h => by
      have ih := flatten3_getVertex3 rest q (by simpa using h)
      have e0 : 3 * (q + 1) = 3 * q + 1 + 1 + 1 := by ring
      have e1 : 3 * (q + 1) + 1 = 3 * q + 1 + 1 + 1 + 1 := by ring
      have e2 : 3 * (q + 1) + 2 = 3 * q + 2 + 1 + 1 + 1 := by ring
      simp only [getVertex3, flatten3, e0, e1, e2, List.getD_cons_succ] at ih ⊢
      exact ih

theorem getD_map_roundV3 (l : List V3) (q : ℕ) (h : q < l.length) :
    (l.map roundV3).getD q V3.zero = roundV3 (l.getD q V3.zero) := by
  rw [List.getD_eq_getElem?_getD, List.getD_eq_getElem?_getD, List.getElem?_map,
    List.getElem?_eq_getElem h]
  rfl

theorem springForces_length (env : SimEnv) (k : ℚ) :
    ∀ (swr : List ((ℕ × ℕ) × ℚ)) (pos fs : List V3),
      (springForces env k swr pos fs).length = fs.length
  | [], pos, fs => rfl
  | sr :: t, pos, fs => by
      show (springForces env k t pos _).length = fs.length
      rw [springForces_length env k t pos _]
      dsimp only
      split
      · rfl
      · simp [List.length_set]

theorem integrate_lengths (p : ClothSimParams) (positions velocities forces : List V3) :
    (integrate p positions velocities forces).1.length =
      min positions.length (min velocities.length forces.length) ∧
    (integrate p positions velocities forces).2.length =
      min velocities.length forces.length := by
  constructor <;> simp [integrate]

theorem enforcePins_lengths (base : List V3) :
    ∀ (l : List ℤ) (pos vel : List V3),
      ((enforcePins base l pos vel).1).length = pos.length ∧
      ((enforcePins base l pos vel).2).length = vel.length
  | [], pos, vel => ⟨rfl, rfl⟩
  | p :: t, pos, vel => by
      show ((enforcePins base t _ _).1).length = pos.length ∧
        ((enforcePins base t _ _).2).length = vel.length
      rw [(enforcePins_lengths base t _ _).1, (enforcePins_lengths base t _ _).2]
      simp [List.length_set]

theorem enforcePins_getD_of_not_mem (base : List V3) :
    ∀ (l : List ℤ) (pos vel : List V3) (q : ℕ), (∀ p ∈ l, p.toNat ≠ q) →
      ((enforcePins base l pos vel).1).getD q V3.zero = pos.getD q V3.zero ∧
      ((enforcePins base l pos vel).2).getD q V3.zero = vel.getD q V3.zero
  | [], pos, vel, q, _ => ⟨rfl, rfl⟩
  | p :: t, pos, vel, q, h => by
      have hne : p.toNat ≠ q := h p (List.mem_cons_self p t)
      have ih := enforcePins_getD_of_not_mem base t (pos.set p.toNat (base.getD p.toNat V3.zero))
        (vel.set p.toNat V3.zero) q (fun r hr => h r (List.mem_cons_of_mem p hr))
      show ((enforcePins base t _ _).1).getD q V3.zero = pos.getD q V3.zero ∧
        ((enforcePins base t _ _).2).getD q V3.zero = vel.getD q V3.zero
      rw [ih.1, ih.2]
      constructor <;>
        rw [List.getD_eq_getElem?_getD, List.getElem?_set_ne hne, ← List.getD_eq_getElem?_getD]

theorem enforcePins_getD_of_mem (base : List V3) :
    ∀ (l : List ℤ) (pos vel : List V3) (q : ℕ), (∃ p ∈ l, p.toNat = q) →
      q < pos.length → q < vel.length →
      ((enforcePins base l pos vel).1).getD q V3.zero = base.getD q V3.zero ∧
      ((enforcePins base l pos vel).2).getD q V3.zero = V3.zero
  | [], pos, vel, q, hex, _, _ => by simp at hex
  | p :: t, pos, vel, q, hex, hq1, hq2 => by
      show ((enforcePins base t _ _).1).getD q V3.zero = base.getD q V3.zero ∧
        ((enforcePins base t _ _).2).getD q V3.zero = V3.zero
      by_cases hmem : ∃ r ∈ t, r.toNat = q
      · exact enforcePins_getD_of_mem base t _ _ q hmem
          (by simpa [List.length_set] using hq1) (by simpa [List.length_set] using hq2)
      · have hpq : p.toNat = q := by
          rcases hex with ⟨r, hr, hrq⟩
          rcases List.mem_cons.mp hr with rfl | hrt
          · exact hrq
          · exact absurd ⟨r, hrt, hrq⟩ hmem
        push_neg at hmem
        have hnm := enforcePins_getD_of_not_mem base t
          (pos.set p.toNat (base.getD p.toNat V3.zero)) (vel.set p.toNat V3.zero) q hmem
        rw [hnm.1, hnm.2, hpq]
        constructor <;>
          rw [List.getD_eq_getElem?_getD, List.getElem?_set_eq_of_lt _ (by omega)] <;> rfl

theorem pin_integrate_spec (p : ClothSimParams) (base : List V3) (pinnedIdx : List ℤ)
    (pos vel forces : List V3) (hv : vel.length = pos.length)
    (hf : forces.length = pos.length) :
    ((enforcePins base pinnedIdx (integrate p pos vel forces).1
        (integrate p pos vel forces).2).1).length = pos.length ∧
    ((enforcePins base pinnedIdx (integrate p pos vel forces).1
        (integrate p pos vel forces).2).2).length = pos.length ∧
    ∀ q : ℤ, q ∈ pinnedIdx → q.toNat < pos.length →
      ((enforcePins base pinnedIdx (integrate p pos vel forces).1
          (integrate p pos vel forces).2).1).getD q.toNat V3.zero =
        base.getD q.toNat V3.zero ∧
      ((enforcePins base pinnedIdx (integrate p pos vel forces).1
          (integrate p pos vel forces).2).2).getD q.toNat V3.zero = V3.zero := by
  have hI := integrate_lengths p pos vel forces
  have hI1 : (integrate p pos vel forces).1.length = pos.length := by
    rw [hI.1, hv, hf]
    simp
  have hI2 : (integrate p pos vel forces).2.length = pos.length := by
    rw [hI.2, hv, hf]
    simp
  have hE := enforcePins_lengths base pinnedIdx
    (integrate p pos vel forces).1 (integrate p pos vel forces).2
  refine ⟨by rw [hE.1, hI1], by rw [hE.2, hI2], ?_⟩
  intro q hq hrange
  exact enforcePins_getD_of_mem base pinnedIdx _ _ q.toNat ⟨q, hq, rfl⟩
    (by rw [hI1]; exact hrange) (by rw [hI2]; exact hrange)

theorem simStep_state (env : SimEnv) (p : ClothSimParams)
    (swr : List ((ℕ × ℕ) × ℚ)) (base : List V3) (pinnedIdx : List ℤ)
    (g w sw : ℚ) (step : ℕ) (st : List V3 × List V3)
    (hlen : st.2.length = st.1.length) :
    ((simStep env p swr base pinnedIdx g w sw step st).1.1).length = st.1.length ∧
    ((simStep env p swr base pinnedIdx g w sw step st).1.2).length = st.1.length ∧
    ∀ q : ℤ, q ∈ pinnedIdx → q.toNat < st.1.length →
      ((simStep env p swr base pinnedIdx g w sw step st).1.1).getD q.toNat V3.zero =
        base.getD q.toNat V3.zero ∧
      ((simStep env p swr base pinnedIdx g w sw step st).1.2).getD q.toNat V3.zero =
        V3.zero ∧
      getVertex3 (simStep env p swr base pinnedIdx g w sw step st).2.vertices q.toNat =
        roundV3 (base.getD q.toNat V3.zero) := by
  unfold simStep
  dsimp only
  have hf : (springForces env p.stiffness swr st.1
      (List.replicate st.1.length
        ⟨env.cosQ (env.piQ * ((step : ℚ) / ((max (p.steps - 1) 1 : ℕ) : ℚ))) * w *
            (18/100) * sw,
          -g,
          w * env.sinQ (env.piQ * ((step : ℚ) / ((max (p.steps - 1) 1 : ℕ) : ℚ)) *
            (115/100 + sw * (3/10)))⟩)).length = st.1.length := by
    rw [springForces_length]
    exact List.length_replicate _ _
  have hspec := pin_integrate_spec p base pinnedIdx st.1 st.2 _ hlen hf
  refine ⟨hspec.1, hspec.2.1, ?_⟩
  intro q hq hrange
  obtain ⟨h1, h2⟩ := hspec.2.2 q hq hrange
  refine ⟨h1, h2, ?_⟩
  rw [flatten3_getVertex3 _ q.toNat (by rw [List.length_map, hspec.1]; exact hrange),
    getD_map_roundV3 _ _ (by rw [hspec.1]; exact hrange), h1]

theorem simLoop_invariant (env : SimEnv) (p : ClothSimParams)
    (swr : List ((ℕ × ℕ) × ℚ)) (base : List V3) (pinnedIdx : List ℤ) (g w sw : ℚ)
    (hpin : ∀ q : ℤ, q ∈ pinnedIdx → q.toNat < base.length) :
    ∀ (stepIndices : List ℕ) (st : List V3 × List V3) (frs : List ClothSimulationFrame),
      st.1.length = base.length → st.2.length = base.length →
      (∀ fr ∈ frs, ∀ q : ℤ, q ∈ pinnedIdx →
        getVertex3 fr.vertices q.toNat = roundV3 (base.getD q.toNat V3.zero)) →
      (simLoop env p swr base pinnedIdx g w sw stepIndices (st, frs)).1.1.length =
          base.length ∧
      (simLoop env p swr base pinnedIdx g w sw stepIndices (st, frs)).1.2.length =
          base.length ∧
      ∀ fr ∈ (simLoop env p swr base pinnedIdx g w sw stepIndices (st, frs)).2,
        ∀ q : ℤ, q ∈ pinnedIdx →
          getVertex3 fr.vertices q.toNat = roundV3 (base.getD q.toNat V3.zero)
  | [], st, frs, h1, h2, hfrs => ⟨h1, h2, hfrs⟩
  | s :: t, st, frs, h1, h2, hfrs => by
      have hlen : st.2.length = st.1.length := by rw [h1, h2]
      have hstep := simStep_state env p swr base pinnedIdx g w sw s st hlen
      have hframe : ∀ q : ℤ, q ∈ pinnedIdx →
          getVertex3 (simStep env p swr base pinnedIdx g w sw s st).2.vertices q.toNat =
            roundV3 (base.getD q.toNat V3.zero) := by
        intro q hq
        exact (hstep.2.2 q hq (by rw [h1]; exact hpin q hq)).2.2
      have ih := simLoop_invariant env p swr base pinnedIdx g w sw hpin t
        ((simStep env p swr base pinnedIdx g w sw s st).1)
        (frs ++ [(simStep env p swr base pinnedIdx g w sw s st).2])
        (by rw [hstep.1, h1]) (by rw [hstep.2.1, h1])
        (by
          intro fr hfr q hq
          rcases List.mem_append.mp hfr with hfr | hfr
          · exact hfrs fr hfr q hq
          · rw [List.mem_singleton.mp hfr]
            exact hframe q hq)
      exact ih

theorem mem_filter_inRange (pinned : List ℤ) (n : ℕ) (q : ℤ)
    (hq : q ∈ pinned.filter (fun idx => decide (0 ≤ idx ∧ idx < (n : ℤ)))) :
    0 ≤ q ∧ q < (n : ℤ) := by
  have := List.mem_filter.mp hq
  simpa using this.2

theorem simulate_some_elim (env : SimEnv) (p : ClothSimParams) (meshVertices : List ℚ)
    (meshIndices : List ℕ) (pinned : List ℤ) (features : String → ℚ)
    (sim : ClothSimulationQ)
    (hne : ¬(meshVertices = [] ∨ meshIndices = []))
    (hsome : simulate env p meshVertices meshIndices pinned features = some sim) :
    ∃ positions : List V3, chunkVectors3 meshVertices = some positions ∧
      (∀ s ∈ _build_springs meshIndices,
        s.1 < positions.length ∧ s.2 < positions.length) ∧
      sim = ⟨(simLoop env p ((_build_springs meshIndices).zip
            (_compute_rest_lengths env.sqrtQ (_build_springs meshIndices) positions))
            positions
            (pinned.filter (fun idx => decide (0 ≤ idx ∧ idx < (positions.length : ℤ))))
            (38/100 + 25/100 * features ("torso_length"))
            (1/10 + 22/100 * features ("movement_intensity"))
            (features ("arm_extension"))
            (List.range p.steps)
            ((positions, List.replicate positions.length V3.zero), [])).2,
          if p.time_step = 0 then 0 else 1 / p.time_step,
          pinned.filter (fun idx => decide (0 ≤ idx ∧ idx < (positions.length : ℤ)))⟩ := by
  unfold simulate at hsome
  rw [if_neg hne] at hsome
  cases hc : chunkVectors3 meshVertices with
  | none =>
    rw [hc] at hsome
    simp at hsome
  | some positions =>
    rw [hc] at hsome
    dsimp only at hsome
    by_cases hg : ∀ s ∈ _build_springs meshIndices,
        s.1 < positions.length ∧ s.2 < positions.length
    · rw [if_pos hg] at hsome
      exact ⟨positions, rfl, hg, (Option.some.inj hsome).symm⟩
    · rw [if_neg hg] at hsome
      simp at hsome

/-- Claim C4, amended: for every non-degenerate simulation that returns,
and every in-range pinned index, after the pin-enforcement pass of every
step the pinned vertex's internal position equals its step-0 (rest)
position and its velocity is exactly zero; the RECORDED frame stores that
rest position rounded to six decimal places (so it equals the rest
position exactly whenever the rest coordinates are representable at that
precision, but not in general). -/
theorem c4_pinned_rest_and_zero_velocity_amended (env : SimEnv) (p : ClothSimParams)
    (meshVertices : List ℚ) (meshIndices : List ℕ) (pinned : List ℤ)
    (features : String → ℚ) (sim : ClothSimulationQ) (positions : List V3)
    (hne : ¬(meshVertices = [] ∨ meshIndices = []))
    (hchunk : chunkVectors3 meshVertices = some positions)
    (hsome : simulate env p meshVertices meshIndices pinned features = some sim) :
    (∀ fr ∈ sim.frames, ∀ q : ℤ, q ∈ sim.pinned_vertices →
      getVertex3 fr.vertices q.toNat = roundV3 (positions.getD q.toNat V3.zero)) ∧
    (∀ (swr : List ((ℕ × ℕ) × ℚ)) (g w sw : ℚ) (step : ℕ)
        (st : List V3 × List V3) (q : ℤ),
      q ∈ sim.pinned_vertices → st.2.length = st.1.length → q.toNat < st.1.length →
      ((simStep env p swr positions sim.pinned_vertices g w sw step st).1.1).getD
          q.toNat V3.zero = positions.getD q.toNat V3.zero ∧
      ((simStep env p swr positions sim.pinned_vertices g w sw step st).1.2).getD
          q.toNat V3.zero = V3.zero) := by
  obtain ⟨positions2, hchunk2, hg, hsim⟩ :=
    simulate_some_elim env p meshVertices meshIndices pinned features sim hne hsome
  have hpos : positions2 = positions := by
    rw [hchunk] at hchunk2
    exact (Option.some.inj hchunk2).symm
  subst hpos
  have hpin : ∀ q : ℤ, q ∈ pinned.filter
      (fun idx => decide (0 ≤ idx ∧ idx < (positions2.length : ℤ))) →
      q.toNat < positions2.length := by
    intro q hq
    have := mem_filter_inRange pinned positions2.length q hq
    omega
  constructor
  · intro fr hfr q hq
    rw [hsim] at hfr hq
    have hloop := simLoop_invariant env p
      ((_build_springs meshIndices).zip
        (_compute_rest_lengths env.sqrtQ (_build_springs meshIndices) positions2))
      positions2
      (pinned.filter (fun idx => decide (0 ≤ idx ∧ idx < (positions2.length : ℤ))))
      (38/100 + 25/100 * features ("torso_length"))
      (1/10 + 22/100 * features ("movement_intensity"))
      (features ("arm_extension")) hpin (List.range p.steps)
      (positions2, List.replicate positions2.length V3.zero) []
      rfl (List.length_replicate _ _) (by intro fr hfr; simp at hfr)
    exact hloop.2.2 fr hfr q hq
  · intro swr g w sw step st q hq hlen hrange
    have hstep := simStep_state env p swr positions2 sim.pinned_vertices g w sw step st hlen
    obtain ⟨h1, h2, -⟩ := hstep.2.2 q hq hrange
    exact ⟨h1, h2⟩

set_option maxHeartbeats 1000000 in
/-- Counterexample to claim C4 as stated: pin vertex 0 of a one-vertex mesh
whose rest x-coordinate `0.1234567` needs seven decimal places.  After the
pin-enforcement pass the internal position equals the rest position, but
the recorded frame stores `round(0.1234567, 6) = 0.123457`, which differs
from the step-0 rest position. -/
theorem c4_counterexample :
    (simulate ⟨fun _ => 0, fun _ => 0, fun _ => 0, 0⟩ ⟨0, 1, 92/100, 14⟩
        [1234567/10000000, 0, 0] [0, 0, 0] [0] (fun _ => 0)).map
        (fun s => s.frames.map (fun fr => fr.vertices)) =
      some [[123457/1000000, 0, 0]] ∧
    (123457/1000000 : ℚ) ≠ 1234567/10000000 := by
  constructor
  · unfold simulate
    rw [if_neg (by simp)]
    have hch : chunkVectors3 [1234567/10000000, 0, 0] =
        some [V3.mk (1234567/10000000) 0 0] := rfl
    rw [hch]
    dsimp only
    rw [if_pos (by decide)]
    simp only [Option.map_some]
    simp only [simLoop, simStep, springForces, integrate, enforcePins, flatten3,
      List.range_succ, List.range_zero, List.foldl_nil, List.foldl_cons, List.nil_append,
      List.zipWith_cons_cons, List.zipWith_nil_right, List.map_cons, List.map_nil,
      List.replicate, V3.add, V3.sub, V3.smul, V3.normSq, V3.zero, List.getD_cons_zero,
      List.set]
    norm_num [roundV3, roundTo6, round_eq, getVertex3, List.filter]
    simp [flatten3]
  · norm_num

/-- Witness for the amended C4 at a concrete pinned one-vertex input. -/
theorem c4_witness :
    (¬(([1, 0, 0] : List ℚ) = [] ∨ ([0, 0, 0] : List ℕ) = [])) ∧
    (chunkVectors3 [1, 0, 0] = some [V3.mk 1 0 0]) ∧
    (simulate ⟨fun _ => 0, fun _ => 0, fun _ => 0, 0⟩ ⟨0, 0, 0, 0⟩ [1, 0, 0] [0, 0, 0]
        [0] (fun _ => 0) = some ⟨[], 0, [0]⟩) ∧
    ((∀ fr ∈ (ClothSimulationQ.mk [] 0 [0]).frames, ∀ q : ℤ,
        q ∈ (ClothSimulationQ.mk [] 0 [0]).pinned_vertices →
        getVertex3 fr.vertices q.toNat = roundV3 (([V3.mk 1 0 0]).getD q.toNat V3.zero)) ∧
      (∀ (swr : List ((ℕ × ℕ) × ℚ)) (g w sw : ℚ) (step : ℕ)
          (st : List V3 × List V3) (q : ℤ),
        q ∈ (ClothSimulationQ.mk [] 0 [0]).pinned_vertices →
        st.2.length = st.1.length → q.toNat < st.1.length →
        ((simStep ⟨fun _ => 0, fun _ => 0, fun _ => 0, 0⟩ ⟨0, 0, 0, 0⟩ swr [V3.mk 1 0 0]
            (ClothSimulationQ.mk [] 0 [0]).pinned_vertices g w sw step st).1.1).getD
            q.toNat V3.zero = ([V3.mk 1 0 0]).getD q.toNat V3.zero ∧
        ((simStep ⟨fun _ => 0, fun _ => 0, fun _ => 0, 0⟩ ⟨0, 0, 0, 0⟩ swr [V3.mk 1 0 0]
            (ClothSimulationQ.mk [] 0 [0]).pinned_vertices g w sw step st).1.2).getD
            q.toNat V3.zero = V3.zero)) :=
  ⟨by decide, rfl, by decide,
    c4_pinned_rest_and_zero_velocity_amended ⟨fun _ => 0, fun _ => 0, fun _ => 0, 0⟩
      ⟨0, 0, 0, 0⟩ [1, 0, 0] [0, 0, 0] [0] (fun _ => 0) ⟨[], 0, [0]⟩ [V3.mk 1 0 0]
      (by decide) rfl (by decide)⟩

/-- Claim C6: with empty vertices or empty indices, `simulate` returns
exactly one frame at time 0 holding the unmodified input positions and
frame rate 0 (and the caller's pinned list unchanged); any non-degenerate
call that returns reports frame rate `1/time_step` when `time_step ≠ 0`
and 0 when `time_step = 0`. -/
theorem c6_degenerate_and_frame_rate (env : SimEnv) (p : ClothSimParams)
    (meshVertices : List ℚ) (meshIndices : List ℕ) (pinned : List ℤ)
    (features : String → ℚ) :
    (meshVertices = [] ∨ meshIndices = [] →
      simulate env p meshVertices meshIndices pinned features =
        some ⟨[⟨0, meshVertices⟩], 0, pinned⟩) ∧
    (∀ sim : ClothSimulationQ, ¬(meshVertices = [] ∨ meshIndices = []) →
      simulate env p meshVertices meshIndices pinned features = some sim →
      sim.frame_rate = if p.time_step = 0 then 0 else 1 / p.time_step) := by
  constructor
  · intro h
    unfold simulate
    rw [if_pos h]
  · intro sim hne hsome
    obtain ⟨positions, -, -, hsim⟩ :=
      simulate_some_elim env p meshVertices meshIndices pinned features sim hne hsome
    rw [hsim]

/-- Witness for C6: a degenerate call with empty vertices, and a
non-degenerate zero-step call. -/
theorem c6_witness :
    (([] : List ℚ) = [] ∨ ([0, 0, 0] : List ℕ) = []) ∧
    (simulate ⟨fun _ => 0, fun _ => 0, fun _ => 0, 0⟩ ⟨0, 0, 0, 0⟩ [] [0, 0, 0] [5]
        (fun _ => 0) = some ⟨[⟨0, []⟩], 0, [5]⟩) ∧
    (¬(([1, 0, 0] : List ℚ) = [] ∨ ([0, 0, 0] : List ℕ) = [])) ∧
    (simulate ⟨fun _ => 0, fun _ => 0, fun _ => 0, 0⟩ ⟨0, 0, 0, 0⟩ [1, 0, 0] [0, 0, 0]
        [] (fun _ => 0) = some ⟨[], 0, []⟩) ∧
    ((ClothSimulationQ.mk [] 0 []).frame_rate =
      if (0 : ℚ) = 0 then 0 else 1 / 0) :=
  ⟨Or.inl rfl,
    (c6_degenerate_and_frame_rate ⟨fun _ => 0, fun _ => 0, fun _ => 0, 0⟩ ⟨0, 0, 0, 0⟩
      [] [0, 0, 0] [5] (fun _ => 0)).1 (Or.inl rfl),
    by decide, by decide,
    (c6_degenerate_and_frame_rate ⟨fun _ => 0, fun _ => 0, fun _ => 0, 0⟩ ⟨0, 0, 0, 0⟩
      [1, 0, 0] [0, 0, 0] [] (fun _ => 0)).2 ⟨[], 0, []⟩ (by decide) (by decide)⟩

theorem chunkVectors3_length :
    ∀ (l : List ℚ) (vs : List V3), chunkVectors3 l = some vs → 3 * vs.length = l.length
  | [], vs, h => by
      obtain rfl := Option.some.inj h
      rfl
  | x :: y :: z :: rest, vs, h => by
      simp only [chunkVectors3, Option.map_eq_some'] at h
      obtain ⟨vs', hrest, rfl⟩ := h
      have := chunkVectors3_length rest vs' hrest
      simp only [List.length_cons]
      omega
  | [x], vs, h => by simp [chunkVectors3] at h
  | [x, y], vs, h => by simp [chunkVectors3] at h

/-- Counterexample to claim C10 as stated: on the degenerate early-return
path (empty vertices), `simulate` hands back the caller's pinned list
unchanged — here `[5]` — not the in-range sublist of a 0-vertex mesh,
which would be empty. -/
theorem c10_counterexample :
    (simulate ⟨fun _ => 0, fun _ => 0, fun _ => 0, 0⟩ ⟨0, 0, 0, 0⟩ [] [0, 0, 0] [5]
        (fun _ => 0)).map (fun s => s.pinned_vertices) = some [5] ∧
    ([5] : List ℤ) ≠ [] := by
  constructor
  · decide
  · decide

/-- Claim C10, amended: on every NON-degenerate call that returns,
out-of-range pinned indices are silently discarded before any
pin-enforcement pass: the returned `pinned_vertices` is exactly the
in-range sublist (order-preserving filter) of the caller's pinned indices,
each surviving index lies in `[0, vertex_count)`, and the vertex count is
the chunked position-list length; on the degenerate early-return path
(empty vertices or indices) no pin pass runs and the caller's original
list is returned unchanged. -/
theorem c10_pinned_filter_amended (env : SimEnv) (p : ClothSimParams)
    (meshVertices : List ℚ) (meshIndices : List ℕ) (pinned : List ℤ)
    (features : String → ℚ) :
    (∀ (sim : ClothSimulationQ) (positions : List V3),
      ¬(meshVertices = [] ∨ meshIndices = []) →
      chunkVectors3 meshVertices = some positions →
      simulate env p meshVertices meshIndices pinned features = some sim →
      sim.pinned_vertices = pinned.filter
        (fun idx => decide (0 ≤ idx ∧ idx < (positions.length : ℤ))) ∧
      (∀ q : ℤ, q ∈ sim.pinned_vertices → 0 ≤ q ∧ q < (positions.length : ℤ)) ∧
      3 * positions.length = meshVertices.length) ∧
    (meshVertices = [] ∨ meshIndices = [] →
      simulate env p meshVertices meshIndices pinned features =
        some ⟨[⟨0, meshVertices⟩], 0, pinned⟩) := by
  constructor
  · intro sim positions hne hchunk hsome
    obtain ⟨positions2, hchunk2, -, hsim⟩ :=
      simulate_some_elim env p meshVertices meshIndices pinned features sim hne hsome
    have hpos : positions2 = positions := by
      rw [hchunk] at hchunk2
      exact (Option.some.inj hchunk2).symm
    subst hpos
    refine ⟨by rw [hsim], ?_, chunkVectors3_length meshVertices positions2 hchunk⟩
    intro q hq
    rw [hsim] at hq
    exact mem_filter_inRange pinned positions2.length q hq
  · intro h
    unfold simulate
    rw [if_pos h]

/-- Witness for the amended C10: a non-degenerate call with pinned indices
`[-1, 0, 7]`, of which only `0` is in range, and a degenerate call. -/
theorem c10_witness :
    (¬(([1, 0, 0] : List ℚ) = [] ∨ ([0, 0, 0] : List ℕ) = [])) ∧
    (chunkVectors3 [1, 0, 0] = some [V3.mk 1 0 0]) ∧
    (simulate ⟨fun _ => 0, fun _ => 0, fun _ => 0, 0⟩ ⟨0, 0, 0, 0⟩ [1, 0, 0] [0, 0, 0]
        [-1, 0, 7] (fun _ => 0) = some ⟨[], 0, [0]⟩) ∧
    ((ClothSimulationQ.mk [] 0 [0]).pinned_vertices =
        ([-1, 0, 7] : List ℤ).filter
          (fun idx => decide (0 ≤ idx ∧ idx < (([V3.mk 1 0 0] : List V3).length : ℤ))) ∧
      (∀ q : ℤ, q ∈ (ClothSimulationQ.mk [] 0 [0]).pinned_vertices →
        0 ≤ q ∧ q < (([V3.mk 1 0 0] : List V3).length : ℤ)) ∧
      3 * ([V3.mk 1 0 0] : List V3).length = ([1, 0, 0] : List ℚ).length) :=
  ⟨by decide, rfl, by decide,
    (c10_pinned_filter_amended ⟨fun _ => 0, fun _ => 0, fun _ => 0, 0⟩ ⟨0, 0, 0, 0⟩
      [1, 0, 0] [0, 0, 0] [-1, 0, 7] (fun _ => 0)).1 ⟨[], 0, [0]⟩ [V3.mk 1 0 0]
      (by decide) rfl (by decide)⟩
